import Mathlib

/-!
Verification of the swiftlog run-lifecycle and log-delivery core against its
Go sources.  Shallow embedding: the relevant functions of
`backend/internal/ingestor/service.go`, `backend/internal/repository/
settings_repository.go`, `backend/internal/ai/analyzer.go`, the Loki client
(`loki` package), the run repository (`repository.LogRunRepository`) and the
websocket plane (`websocket/hub.go` and the websocket entry point) are
translated into executable Lean definitions, and the specified properties are
stated and proved (or refuted) about them.
-/

namespace Swiftlog

/-! ## Data model (package `models`) -/

/-- `models.RunStatus` (running / completed / failed / aborted). -/
inductive RunStatus
  | running
  | completed
  | failed
  | aborted
deriving Repr, DecidableEq

/-- `models.AIStatus` (none / pending / processing / completed / failed). -/
inductive AIStatus
  | none
  | pending
  | processing
  | completed
  | failed
deriving Repr, DecidableEq

/-- `models.LogRun` restricted to the fields the verified operations touch:
`Status`, `ExitCode` (`sql.NullInt32`, modelled as `Option Int`),
`EndTime` (`sql.NullTime`, modelled as `Option Nat` of wall-clock instants)
and `AIStatus`. -/
structure Run where
  status : RunStatus
  exitCode : Option Int
  endTime : Option Nat
  aiStatus : AIStatus
deriving Repr, DecidableEq

/-- `LogRunRepository.UpdateStatus` (src/unnamed/part_014, lines 314-332):
an unconditional `UPDATE log_runs SET status = $1, exit_code = $2,
end_time = $3 WHERE id = $4` with `end_time = now()`.  There is no guard on
the current status of the run. -/
def UpdateStatus (now : Nat) (st : RunStatus) (exitCode : Option Int) (r : Run) : Run :=
  { r with status := st, exitCode := exitCode, endTime := some now }

/-- Folding a recorded list of finalize calls (status, exit code) over a run,
all at the same wall-clock instant. -/
def applyFinalized (now : Nat) (calls : List (RunStatus × Option Int)) (r : Run) : Run :=
  calls.foldl (fun acc c => UpdateStatus now c.1 c.2 acc) r

/-- Modelled from the spec: the three-argument
`LogRunRepository.Create(ctx, groupID, initialAIStatus)` called at
src/backend/internal/ingestor/service.go line 121 is not present under src/
(src/unnamed/part_014 holds only the historical two-argument variant).
Per spec section 4.1, `create_run(group_id, initial_ai_status)` sets
`start_time = now()`, `status = running`, and stores the given initial AI
status; `end_time` and `exit_code` start NULL. -/
def createRun (initialAI : AIStatus) : Run :=
  { status := RunStatus.running
    exitCode := Option.none
    endTime := Option.none
    aiStatus := initialAI }

/-! ## Settings (package `models` + `repository.SettingsRepository`) -/

/-- `models.UserSettings`, the AI-configuration fields read by
`SettingsRepository.GetUserSettings` (settings_repository.go lines 23-54).
`AIAPIKey` is `sql.NullString`, modelled as `Option String`. -/
structure UserSettings where
  aiEnabled : Bool
  aiBaseURL : String
  aiAPIKey : Option String
  aiModel : String
  aiMaxTokens : Int
  aiAutoAnalyze : Bool
  aiMaxLogLines : Int
  aiLogTruncateStrategy : String
  aiSystemPrompt : String
deriving Repr, DecidableEq

/-- `models.ProjectSettings`: the same AI fields, all nullable
(null = inherit from the user settings). -/
structure ProjectSettings where
  aiEnabled : Option Bool
  aiBaseURL : Option String
  aiAPIKey : Option String
  aiModel : Option String
  aiMaxTokens : Option Int
  aiAutoAnalyze : Option Bool
  aiMaxLogLines : Option Int
  aiLogTruncateStrategy : Option String
  aiSystemPrompt : Option String
deriving Repr, DecidableEq

/-- `models.EffectiveSettings`: the merged configuration plus its source tag
("user" / "merged"). -/
structure EffectiveSettings where
  aiEnabled : Bool
  aiBaseURL : String
  aiAPIKey : String
  aiModel : String
  aiMaxTokens : Int
  aiAutoAnalyze : Bool
  aiMaxLogLines : Int
  aiLogTruncateStrategy : String
  aiSystemPrompt : String
  source : String
deriving Repr, DecidableEq

/-- `nullStringToString` (settings_repository.go lines 285-290). -/
def nullStringToString (ns : Option String) : String :=
  match ns with
  | some s => s
  | Option.none => ""

/-- `SettingsRepository.GetEffectiveSettings` (settings_repository.go lines
210-283).  The user settings are the base; if a project-settings row exists
(`project = some p`; a missing row is `none`, mirroring the `sql.ErrNoRows`
path of `GetProjectSettings`), every non-null project field overwrites the
corresponding field and sets `hasOverrides`; if any override applied the
source tag becomes "merged". -/
def GetEffectiveSettings (user : UserSettings) (project : Option ProjectSettings) :
    EffectiveSettings :=
  let effective : EffectiveSettings :=
    { aiEnabled := user.aiEnabled
      aiBaseURL := user.aiBaseURL
      aiAPIKey := nullStringToString user.aiAPIKey
      aiModel := user.aiModel
      aiMaxTokens := user.aiMaxTokens
      aiAutoAnalyze := user.aiAutoAnalyze
      aiMaxLogLines := user.aiMaxLogLines
      aiLogTruncateStrategy := user.aiLogTruncateStrategy
      aiSystemPrompt := user.aiSystemPrompt
      source := "user" }
  match project with
  | Option.none => effective
  | some p =>
    let st := (effective, false)
    let st := match p.aiEnabled with
      | some v => ({ st.1 with aiEnabled := v }, true)
      | Option.none => st
    let st := match p.aiBaseURL with
      | some v => ({ st.1 with aiBaseURL := v }, true)
      | Option.none => st
    let st := match p.aiAPIKey with
      | some v => ({ st.1 with aiAPIKey := v }, true)
      | Option.none => st
    let st := match p.aiModel with
      | some v => ({ st.1 with aiModel := v }, true)
      | Option.none => st
    let st := match p.aiMaxTokens with
      | some v => ({ st.1 with aiMaxTokens := v }, true)
      | Option.none => st
    let st := match p.aiAutoAnalyze with
      | some v => ({ st.1 with aiAutoAnalyze := v }, true)
      | Option.none => st
    let st := match p.aiMaxLogLines with
      | some v => ({ st.1 with aiMaxLogLines := v }, true)
      | Option.none => st
    let st := match p.aiLogTruncateStrategy with
      | some v => ({ st.1 with aiLogTruncateStrategy := v }, true)
      | Option.none => st
    let st := match p.aiSystemPrompt with
      | some v => ({ st.1 with aiSystemPrompt := v }, true)
      | Option.none => st
    if st.2 then { st.1 with source := "merged" } else st.1

/-- Whether any project-settings field is non-null (so an overlay applies). -/
def anyOverride (p : ProjectSettings) : Bool :=
  p.aiEnabled.isSome || p.aiBaseURL.isSome || p.aiAPIKey.isSome || p.aiModel.isSome ||
  p.aiMaxTokens.isSome || p.aiAutoAnalyze.isSome || p.aiMaxLogLines.isSome ||
  p.aiLogTruncateStrategy.isSome || p.aiSystemPrompt.isSome

/-- The resolved API key as the spec words it: the first non-empty of the
project key then the user key (a NULL key reads as the empty string). -/
def firstNonEmptyKey (projectKey userKey : Option String) : String :=
  if nullStringToString projectKey ≠ "" then nullStringToString projectKey
  else nullStringToString userKey

/-- The spec-side description of settings resolution (spec section 4.1):
field-by-field left-overlay of the non-null project fields onto the user
settings, source tag "user" when no project field applied and "merged"
otherwise, and the API key resolved as the first non-empty of project then
user.  Stated separately from `GetEffectiveSettings` so the two can be
compared. -/
def effectiveSettingsSpec (user : UserSettings) (project : Option ProjectSettings) :
    EffectiveSettings :=
  match project with
  | Option.none =>
    { aiEnabled := user.aiEnabled
      aiBaseURL := user.aiBaseURL
      aiAPIKey := nullStringToString user.aiAPIKey
      aiModel := user.aiModel
      aiMaxTokens := user.aiMaxTokens
      aiAutoAnalyze := user.aiAutoAnalyze
      aiMaxLogLines := user.aiMaxLogLines
      aiLogTruncateStrategy := user.aiLogTruncateStrategy
      aiSystemPrompt := user.aiSystemPrompt
      source := "user" }
  | some p =>
    { aiEnabled := p.aiEnabled.getD user.aiEnabled
      aiBaseURL := p.aiBaseURL.getD user.aiBaseURL
      aiAPIKey := firstNonEmptyKey p.aiAPIKey user.aiAPIKey
      aiModel := p.aiModel.getD user.aiModel
      aiMaxTokens := p.aiMaxTokens.getD user.aiMaxTokens
      aiAutoAnalyze := p.aiAutoAnalyze.getD user.aiAutoAnalyze
      aiMaxLogLines := p.aiMaxLogLines.getD user.aiMaxLogLines
      aiLogTruncateStrategy := p.aiLogTruncateStrategy.getD user.aiLogTruncateStrategy
      aiSystemPrompt := p.aiSystemPrompt.getD user.aiSystemPrompt
      source := if anyOverride p then "merged" else "user" }

/-- `api/handlers/settings.go` (project-settings update handler, lines
208-212, and the user-settings variant at lines 92-97): a request key of ""
clears the stored key to NULL, an absent request key keeps the current one,
and any other key is stored as-is.  Consequently a stored key is never the
empty string. -/
def normalizeAPIKeyUpdate (req : Option String) (current : Option String) : Option String :=
  match req with
  | Option.none => current
  | some s => if s = "" then Option.none else some s

/-! ## Ingestor (`backend/internal/ingestor/service.go`, `StreamLog`) -/

/-- `pb.LogLine.Level` (proto enum values `STDOUT` / `STDERR`). -/
inductive Level
  | stdout
  | stderr
deriving Repr, DecidableEq

/-- `Level.String()` of the generated proto enum returns the value name. -/
def levelName : Level → String
  | Level.stdout => "STDOUT"
  | Level.stderr => "STDERR"

/-- A `pb.LogLine` frame: client wall-clock timestamp (UnixNano), level and
content. -/
structure LineFrame where
  ts : Nat
  level : Level
  content : String
deriving Repr, DecidableEq

/-- The inbound frame union of the `StreamLogRequest` oneof:
`Metadata | Line | Completion`. -/
inductive Frame
  | metadata (projectName groupName : String)
  | line (l : LineFrame)
  | completion (exitCode : Int)
deriving Repr, DecidableEq

/-- One observable occurrence inside the `for { select { ... } }` receive
loop of `StreamLog` (service.go lines 155-226): a received frame, a batch
ticker tick, `Recv` returning `io.EOF` (client closed its send side),
`Recv` returning a non-EOF stream error, or context cancellation.  An input
stream is a list of these events, which captures every interleaving of the
`select`. -/
inductive Event
  | recv (f : Frame)
  | tick
  | recvEOF
  | recvErr
  | cancel
deriving Repr, DecidableEq

/-- `loki.LogEntry`: the timestamp plus the already-formatted line text. -/
structure LokiEntry where
  ts : Nat
  line : String
deriving Repr, DecidableEq

/-- service.go line 186: the stored Loki line text
`fmt.Sprintf("[%s] %s", line.Level.String(), line.Content)`. -/
def formatLogLine (lvl : Level) (content : String) : String :=
  "[" ++ levelName lvl ++ "] " ++ content

/-- The `loki.LogEntry` built for a received `Line` frame
(service.go lines 184-187). -/
def lokiEntryOf (l : LineFrame) : LokiEntry :=
  { ts := l.ts, line := formatLogLine l.level l.content }

/-- service.go lines 203-209: completed on exit code 0, failed otherwise. -/
def statusForExit (c : Int) : RunStatus :=
  if c = 0 then RunStatus.completed else RunStatus.failed

/-- The gRPC status class of the return value of `StreamLog` (plus `hung`
for an event list that ends while the loop would still be blocked in
`Recv`). -/
inductive Outcome
  | ok
  | errUnauthenticated
  | errInvalidArgument
  | errInternal
  | errCanceled
  | hung
deriving Repr, DecidableEq

/-- `websocket.LogMessage` as built by `websocket.PublishLog`
(hub.go lines 168-184). -/
structure LogMessage where
  runId : Nat
  ts : Nat
  level : String
  content : String
deriving Repr, DecidableEq

/-- The message `websocket.PublishLog` would publish on the
`swiftlog:logs` channel for one log line of a run (hub.go lines 168-184). -/
def mkPublishLogMessage (runId : Nat) (ts : Nat) (level content : String) : LogMessage :=
  { runId := runId, ts := ts, level := level, content := content }

/-- The externally observable side effects of one `StreamLog` call after run
creation: the batches pushed to Loki in order, the
`LogRunRepository.UpdateStatus` calls in order, the AI tasks enqueued via
`taskQueue.PublishAITask` in order, the per-line messages published on the
event bus in order, and the gRPC outcome. -/
structure Trace where
  flushed : List (List LokiEntry)
  finalized : List (RunStatus × Option Int)
  tasks : List (Nat × Nat)
  published : List LogMessage
  outcome : Outcome
deriving Repr, DecidableEq

/-- The empty trace with a given outcome. -/
def Trace.done (o : Outcome) : Trace :=
  { flushed := [], finalized := [], tasks := [], published := [], outcome := o }

/-- `flushBatch` (service.go lines 144-152): pushes the batch to Loki when
it is non-empty, then clears it; an empty batch pushes nothing. -/
def emitFlush (batch : List LokiEntry) (t : Trace) : Trace :=
  if batch.isEmpty then t else { t with flushed := batch :: t.flushed }

/-- The receive loop of `StreamLog` (service.go lines 155-226) as a function
of the remaining events and the current in-memory batch.
* context cancellation: flush, return `Canceled` (no finalize);
* ticker: flush, continue;
* `Recv` = `io.EOF`: flush, return nil (no finalize);
* `Recv` error: flush, `UpdateStatus(aborted, nil)`, return `Internal`;
* `Line`: append the formatted entry to the batch, flush when
  `len(batch) >= batchSize`;
* `Completion{c}`: flush, `UpdateStatus(completed/failed, &c)`, enqueue the
  AI task when the created run had `AIStatus = pending` and a task queue is
  configured, return nil (later events are never received);
* a `Metadata` frame matches neither `GetLine` nor `GetCompletion` and is
  ignored.
No message is ever published on the event bus in this loop. -/
def streamLoop (batchSize : Nat) (runId userId : Nat) (initialAI : AIStatus)
    (hasQueue : Bool) (batch : List LokiEntry) : List Event → Trace
  | [] => Trace.done Outcome.hung
  | Event.cancel :: _ => emitFlush batch (Trace.done Outcome.errCanceled)
  | Event.tick :: rest =>
    emitFlush batch (streamLoop batchSize runId userId initialAI hasQueue [] rest)
  | Event.recvEOF :: _ => emitFlush batch (Trace.done Outcome.ok)
  | Event.recvErr :: _ =>
    emitFlush batch
      { Trace.done Outcome.errInternal with finalized := [(RunStatus.aborted, Option.none)] }
  | Event.recv (Frame.metadata _ _) :: rest =>
    streamLoop batchSize runId userId initialAI hasQueue batch rest
  | Event.recv (Frame.line l) :: rest =>
    let batch' := batch ++ [lokiEntryOf l]
    if batchSize ≤ batch'.length then
      emitFlush batch' (streamLoop batchSize runId userId initialAI hasQueue [] rest)
    else
      streamLoop batchSize runId userId initialAI hasQueue batch' rest
  | Event.recv (Frame.completion c) :: _ =>
    emitFlush batch
      { Trace.done Outcome.ok with
        finalized := [(statusForExit c, some c)]
        tasks :=
          if initialAI = AIStatus.pending ∧ hasQueue = true then [(runId, userId)] else [] }

/-- The result of the first `stream.Recv()` call of `StreamLog`
(service.go lines 77-81): a frame, or an error (`io.EOF` included, both
mapped to an `Internal` return before any run exists). -/
inductive FirstRecv
  | frame (f : Frame)
  | failed
deriving Repr, DecidableEq

/-- service.go lines 115-118: the initial AI status is pending exactly when
effective settings were resolved and have both `AIEnabled` and
`AIAutoAnalyze`; a settings-resolution error (`none`) falls back to
`AIStatusNone`. -/
def initialAIStatusOf (settings : Option EffectiveSettings) : AIStatus :=
  match settings with
  | some es => if es.aiEnabled && es.aiAutoAnalyze then AIStatus.pending else AIStatus.none
  | Option.none => AIStatus.none

/-- The result of one `StreamLog` call: the run created (with its initial AI
status), whether the `Started` reply was sent, and the effect trace. -/
structure StreamResult where
  createdRun : Option Run
  startedSent : Bool
  trace : Trace
deriving Repr, DecidableEq

/-- `Service.StreamLog` (service.go lines 69-227).
`auth` is the authenticated user id from the context (`none` maps to
`Unauthenticated`); `settings` the result of `GetEffectiveSettings`
(`none` when it errored); `first` the first `Recv`; `events` the rest of
the stream.  A first frame that is not `Metadata` is rejected with
`InvalidArgument` and no run is created.  Otherwise the run is created with
the settings-derived initial AI status, `Started` is sent, and the receive
loop runs. -/
def StreamLog (batchSize runId : Nat) (hasQueue : Bool) (auth : Option Nat)
    (settings : Option EffectiveSettings) (first : FirstRecv) (events : List Event) :
    StreamResult :=
  match auth with
  | Option.none =>
    { createdRun := Option.none, startedSent := false
      trace := Trace.done Outcome.errUnauthenticated }
  | some userId =>
    match first with
    | FirstRecv.failed =>
      { createdRun := Option.none, startedSent := false
        trace := Trace.done Outcome.errInternal }
    | FirstRecv.frame (Frame.metadata _ _) =>
      let initAI := initialAIStatusOf settings
      { createdRun := some (createRun initAI)
        startedSent := true
        trace := streamLoop batchSize runId userId initAI hasQueue [] events }
    | FirstRecv.frame _ =>
      { createdRun := Option.none, startedSent := false
        trace := Trace.done Outcome.errInvalidArgument }

/-- Events that neither terminate the receive loop nor finalize the run:
`Line` and `Metadata` frames and ticker ticks. -/
def Event.isQuiet : Event → Bool
  | Event.recv (Frame.line _) => true
  | Event.recv (Frame.metadata _ _) => true
  | Event.tick => true
  | _ => false

/-- The Loki entries of the `Line` frames of an event list, in order. -/
def linesOf (events : List Event) : List LokiEntry :=
  events.filterMap fun e =>
    match e with
    | Event.recv (Frame.line l) => some (lokiEntryOf l)
    | _ => Option.none

/-! ## Loki entry serialization (`loki.LogEntry.MarshalJSON`, src/unnamed/part_016
lines 58-83) -/

/-- The level/content extraction of `LogEntry.MarshalJSON` on the character
list of the stored line.  The Go code byte-indexes the line
(`e.Line[0]`, `e.Line[1:9]`, `e.Line[9:]`); because the compared prefixes
`"[STDOUT] "` / `"[STDERR] "` are pure ASCII, byte indexing and character
indexing agree observationally and the function is modelled on characters:
default level "STDOUT" with the whole line as content, overridden when the
line is longer than the 9-character prefix and starts with one of the two
prefixes. -/
def marshalChars (line : List Char) : List Char × List Char :=
  if 8 < line.length ∧ line.take 1 = ['['] then
    if 9 < line.length ∧ (line.drop 1).take 8 = "STDOUT] ".data then
      ("STDOUT".data, line.drop 9)
    else if 9 < line.length ∧ (line.drop 1).take 8 = "STDERR] ".data then
      ("STDERR".data, line.drop 9)
    else ("STDOUT".data, line)
  else ("STDOUT".data, line)

/-- `LogEntry.MarshalJSON` restricted to the `(level, content)` pair it
serializes for API consumers. -/
def marshalLevelContent (line : String) : String × String :=
  ((marshalChars line.data).1.asString, (marshalChars line.data).2.asString)

/-! ## Analyzer truncation (`backend/internal/ai/analyzer.go`, `prepareLogs`,
lines 177-225) -/

/-- The marker line `... [N lines omitted] ...` (without surrounding
newlines; the Go code wraps it with "\n" differently per strategy). -/
def omittedMarker (n : Nat) : String :=
  "... [" ++ toString n ++ " lines omitted] ..."

/-- A Go loop `for i := lo; i < hi; i++ { builder.WriteString(logs[i]);
builder.WriteString("\n") }` as a function of the index range. -/
def writeRange (logs : List String) (lo hi : Nat) : String :=
  if lo < hi then logs.getD lo "" ++ "\n" ++ writeRange logs (lo + 1) hi else ""
termination_by hi - lo

/-- `prepareLogs` (analyzer.go lines 177-225).  When the logs fit in
`maxLines` they are joined with "\n" unchanged.  Otherwise: `head` keeps the
first `maxLines` lines (the loop bound is `i < maxLines && i < len(logs)`,
hence the `min`) and appends the marker; `tail` prepends the marker and
keeps the last `maxLines` lines; `smart` keeps the first
`int(float64(maxLines) * 0.4)` lines and the last `maxLines - firstPart`
lines around the marker — for every `maxLines` in the range of a Go int
built from an int32 settings column, `int(float64(maxLines)*0.4)` equals
`2 * maxLines / 5` in integer arithmetic, which is how it is written here;
any other strategy recurses with "tail", which reduces to the `tail`
branch. -/
def prepareLogs (logs : List String) (maxLines : Nat) (strategy : String) : String :=
  if logs.length ≤ maxLines then
    String.intercalate "\n" logs
  else if strategy = "head" then
    writeRange logs 0 (min maxLines logs.length) ++
      "\n" ++ omittedMarker (logs.length - maxLines) ++ "\n"
  else if strategy = "tail" then
    omittedMarker (logs.length - maxLines) ++ "\n\n" ++
      writeRange logs (logs.length - maxLines) logs.length
  else if strategy = "smart" then
    let firstPart := 2 * maxLines / 5
    let lastPart := maxLines - firstPart
    writeRange logs 0 firstPart ++
      "\n" ++ omittedMarker (logs.length - maxLines) ++ "\n\n" ++
      writeRange logs (logs.length - lastPart) logs.length
  else
    omittedMarker (logs.length - maxLines) ++ "\n\n" ++
      writeRange logs (logs.length - maxLines) logs.length

/-- Each line followed by "\n", concatenated: the shape every `prepareLogs`
loop produces for a sublist of lines. -/
def joinNl : List String → String
  | [] => ""
  | x :: xs => x ++ "\n" ++ joinNl xs

/-! ## Fan-out plane (src/unnamed/part_010 `handleWebSocket`,
`backend/internal/websocket/hub.go`) -/

/-- The run/group/project rows traversed by the ownership check. -/
structure WsRun where
  id : Nat
  groupId : Nat
deriving Repr, DecidableEq

structure WsGroup where
  id : Nat
  projectId : Nat
deriving Repr, DecidableEq

structure WsProject where
  id : Nat
  userId : Nat
deriving Repr, DecidableEq

/-- The HTTP rejection classes of `handleWebSocket`
(part_010 lines 126-164). -/
inductive WsError
  | unauthorized
  | notFound
  | internalErr
  | forbidden
deriving Repr, DecidableEq

/-- The authentication and ownership gate of `handleWebSocket`
(part_010 lines 126-164): missing token or failed validation is 401; an
unknown run is 404; a group lookup failure is 500; a project lookup failure
or a project owned by a different user is 403; otherwise the subscriber is
admitted. -/
def handleWebSocketAuth (token : String) (validate : String → Option Nat)
    (runLookup : Nat → Option WsRun) (groupLookup : Nat → Option WsGroup)
    (projectLookup : Nat → Option WsProject) (runId : Nat) : Except WsError Nat :=
  if token = "" then Except.error WsError.unauthorized
  else
    match validate token with
    | Option.none => Except.error WsError.unauthorized
    | some userId =>
      match runLookup runId with
      | Option.none => Except.error WsError.notFound
      | some run =>
        match groupLookup run.groupId with
        | Option.none => Except.error WsError.internalErr
        | some group =>
          match projectLookup group.projectId with
          | Option.none => Except.error WsError.forbidden
          | some project =>
            if project.userId = userId then Except.ok userId
            else Except.error WsError.forbidden

/-- A message delivered to an admitted subscriber, tagged by origin:
a snapshot entry replayed from the LogStore, or a live event-bus message. -/
inductive WsDelivered
  | snap (e : LokiEntry)
  | live (m : LogMessage)
deriving Repr, DecidableEq

/-- Whether a delivered message is a snapshot entry. -/
def WsDelivered.isSnap : WsDelivered → Bool
  | WsDelivered.snap _ => true
  | WsDelivered.live _ => false

/-- Modelled from the spec: the websocket `Client` registered by
`handleWebSocket` (`ws.NewClient` / `client.Start`, part_010 lines 174-176)
is not present under src/.  Per spec section 4.5, on attach the subscriber
first receives the snapshot `LogStore.query(run_id)` streamed in order and
only afterwards the live event-bus tail filtered by matching `run_id`. -/
def clientDeliver (runId : Nat) (snapshot : List LokiEntry) (live : List LogMessage) :
    List WsDelivered :=
  snapshot.map WsDelivered.snap ++
    ((live.filter fun m => m.runId == runId).map WsDelivered.live)

/-- `handleWebSocket` end to end: the gate of part_010 lines 126-164
followed by the (spec-modelled) snapshot-then-live delivery for the admitted
subscriber. -/
def handleWebSocket (token : String) (validate : String → Option Nat)
    (runLookup : Nat → Option WsRun) (groupLookup : Nat → Option WsGroup)
    (projectLookup : Nat → Option WsProject) (runId : Nat)
    (snapshot : List LokiEntry) (live : List LogMessage) :
    Except WsError (List WsDelivered) :=
  match handleWebSocketAuth token validate runLookup groupLookup projectLookup runId with
  | Except.error e => Except.error e
  | Except.ok _ => Except.ok (clientDeliver runId snapshot live)

/-! ## Proof infrastructure -/

/-- The one-step effect of each loop-terminating event of `streamLoop`
(everything except its flush of the current batch): `none` for events that
keep the loop running. -/
def terminalTrace (runId userId : Nat) (initialAI : AIStatus) (hasQueue : Bool) :
    Event → Option Trace
  | Event.recvEOF => some (Trace.done Outcome.ok)
  | Event.recvErr =>
    some { Trace.done Outcome.errInternal with
           finalized := [(RunStatus.aborted, Option.none)] }
  | Event.cancel => some (Trace.done Outcome.errCanceled)
  | Event.recv (Frame.completion c) =>
    some { Trace.done Outcome.ok with
           finalized := [(statusForExit c, some c)]
           tasks :=
             if initialAI = AIStatus.pending ∧ hasQueue = true then [(runId, userId)]
             else [] }
  | _ => Option.none

/-- A trace without its flush decomposition: the finalize calls, enqueued
tasks, published messages and outcome. -/
def Trace.core (t : Trace) :
    List (RunStatus × Option Int) × List (Nat × Nat) × List LogMessage × Outcome :=
  (t.finalized, t.tasks, t.published, t.outcome)

/-- A concrete effective-settings fixture with AI auto-analysis enabled,
used by concrete-instance theorems. -/
def esAuto : EffectiveSettings :=
  { aiEnabled := true
    aiBaseURL := "u"
    aiAPIKey := "k"
    aiModel := "m"
    aiMaxTokens := 500
    aiAutoAnalyze := true
    aiMaxLogLines := 1000
    aiLogTruncateStrategy := "tail"
    aiSystemPrompt := "s"
    source := "user" }

/-- The user settings of scenario S6: model gpt-4o-mini, 500 max tokens,
tail truncation. -/
def userS6 : UserSettings :=
  { aiEnabled := true
    aiBaseURL := "https://api.openai.com/v1"
    aiAPIKey := some "uk"
    aiModel := "gpt-4o-mini"
    aiMaxTokens := 500
    aiAutoAnalyze := false
    aiMaxLogLines := 1000
    aiLogTruncateStrategy := "tail"
    aiSystemPrompt := "sys" }

/-- The project settings of scenario S6: only model and max log lines are
overridden, everything else inherits. -/
def projS6 : ProjectSettings :=
  { aiEnabled := Option.none
    aiBaseURL := Option.none
    aiAPIKey := Option.none
    aiModel := some "gpt-4"
    aiMaxTokens := Option.none
    aiAutoAnalyze := Option.none
    aiMaxLogLines := some 200
    aiLogTruncateStrategy := Option.none
    aiSystemPrompt := Option.none }

/-! ## Shared lemmas -/

theorem emitFlush_flushed_join (batch : List LokiEntry) (t : Trace) :
    (emitFlush batch t).flushed.join = batch ++ t.flushed.join := by
  unfold emitFlush
  split
  · simp_all [List.isEmpty_iff]
  · simp

theorem emitFlush_core (batch : List LokiEntry) (t : Trace) :
    (emitFlush batch t).core = t.core := by
  unfold emitFlush
  split <;> rfl

theorem linesOf_cons_line (l : LineFrame) (evs : List Event) :
    linesOf (Event.recv (Frame.line l) :: evs) = lokiEntryOf l :: linesOf evs := by
  simp [linesOf]

theorem linesOf_cons_metadata (p g : String) (evs : List Event) :
    linesOf (Event.recv (Frame.metadata p g) :: evs) = linesOf evs := by
  simp [linesOf]

theorem linesOf_cons_tick (evs : List Event) :
    linesOf (Event.tick :: evs) = linesOf evs := by
  simp [linesOf]

theorem streamLoop_nil (bs rid uid : Nat) (ai : AIStatus) (hq : Bool)
    (batch : List LokiEntry) :
    streamLoop bs rid uid ai hq batch [] = Trace.done Outcome.hung := rfl

theorem streamLoop_cons_cancel (bs rid uid : Nat) (ai : AIStatus) (hq : Bool)
    (batch : List LokiEntry) (rest : List Event) :
    streamLoop bs rid uid ai hq batch (Event.cancel :: rest) =
      emitFlush batch (Trace.done Outcome.errCanceled) := rfl

theorem streamLoop_cons_tick (bs rid uid : Nat) (ai : AIStatus) (hq : Bool)
    (batch : List LokiEntry) (rest : List Event) :
    streamLoop bs rid uid ai hq batch (Event.tick :: rest) =
      emitFlush batch (streamLoop bs rid uid ai hq [] rest) := rfl

theorem streamLoop_cons_eof (bs rid uid : Nat) (ai : AIStatus) (hq : Bool)
    (batch : List LokiEntry) (rest : List Event) :
    streamLoop bs rid uid ai hq batch (Event.recvEOF :: rest) =
      emitFlush batch (Trace.done Outcome.ok) := rfl

theorem streamLoop_cons_err (bs rid uid : Nat) (ai : AIStatus) (hq : Bool)
    (batch : List LokiEntry) (rest : List Event) :
    streamLoop bs rid uid ai hq batch (Event.recvErr :: rest) =
      emitFlush batch
        { Trace.done Outcome.errInternal with
          finalized := [(RunStatus.aborted, Option.none)] } := rfl

theorem streamLoop_cons_metadata (bs rid uid : Nat) (ai : AIStatus) (hq : Bool)
    (batch : List LokiEntry) (p g : String) (rest : List Event) :
    streamLoop bs rid uid ai hq batch (Event.recv (Frame.metadata p g) :: rest) =
      streamLoop bs rid uid ai hq batch rest := rfl

theorem streamLoop_cons_line (bs rid uid : Nat) (ai : AIStatus) (hq : Bool)
    (batch : List LokiEntry) (l : LineFrame) (rest : List Event) :
    streamLoop bs rid uid ai hq batch (Event.recv (Frame.line l) :: rest) =
      (if bs ≤ (batch ++ [lokiEntryOf l]).length then
        emitFlush (batch ++ [lokiEntryOf l]) (streamLoop bs rid uid ai hq [] rest)
      else
        streamLoop bs rid uid ai hq (batch ++ [lokiEntryOf l]) rest) := rfl

theorem streamLoop_cons_completion (bs rid uid : Nat) (ai : AIStatus) (hq : Bool)
    (batch : List LokiEntry) (c : Int) (rest : List Event) :
    streamLoop bs rid uid ai hq batch (Event.recv (Frame.completion c) :: rest) =
      emitFlush batch
        { Trace.done Outcome.ok with
          finalized := [(statusForExit c, some c)]
          tasks :=
            if ai = AIStatus.pending ∧ hq = true then [(rid, uid)] else [] } := rfl

/-- Master lemma on the receive loop: processing quiet events up to a
terminating event flushes exactly the pending batch followed by the entries
of the `Line` frames processed, and the finalize calls, tasks, published
messages and outcome are those of the terminating step; later events are
never looked at. -/
theorem streamLoop_spec (bs rid uid : Nat) (ai : AIStatus) (hq : Bool)
    (t : Event) (base : Trace)
    (hterm : terminalTrace rid uid ai hq t = some base) :
    ∀ (pre : List Event) (batch : List LokiEntry) (rest : List Event),
      (∀ e ∈ pre, e.isQuiet = true) →
      (streamLoop bs rid uid ai hq batch (pre ++ t :: rest)).flushed.join =
        batch ++ linesOf pre ∧
      (streamLoop bs rid uid ai hq batch (pre ++ t :: rest)).core = base.core := by
  intro pre
  induction pre with
  | nil =>
    intro batch rest _
    simp only [List.nil_append]
    cases t with
    | recv f =>
      cases f with
      | metadata p g => simp [terminalTrace] at hterm
      | line l => simp [terminalTrace] at hterm
      | completion c =>
        simp only [terminalTrace, Option.some_inj] at hterm
        subst hterm
        rw [streamLoop_cons_completion]
        exact ⟨by rw [emitFlush_flushed_join]; simp [Trace.done, linesOf],
          by rw [emitFlush_core]⟩
    | tick => simp [terminalTrace] at hterm
    | recvEOF =>
      simp only [terminalTrace, Option.some_inj] at hterm
      subst hterm
      rw [streamLoop_cons_eof]
      exact ⟨by rw [emitFlush_flushed_join]; simp [Trace.done, linesOf],
        by rw [emitFlush_core]⟩
    | recvErr =>
      simp only [terminalTrace, Option.some_inj] at hterm
      subst hterm
      rw [streamLoop_cons_err]
      exact ⟨by rw [emitFlush_flushed_join]; simp [Trace.done, linesOf],
        by rw [emitFlush_core]⟩
    | cancel =>
      simp only [terminalTrace, Option.some_inj] at hterm
      subst hterm
      rw [streamLoop_cons_cancel]
      exact ⟨by rw [emitFlush_flushed_join]; simp [Trace.done, linesOf],
        by rw [emitFlush_core]⟩
  | cons e pre ih =>
    intro batch rest hq'
    have he : e.isQuiet = true := hq' e (List.mem_cons_self e pre)
    have hpre : ∀ x ∈ pre, x.isQuiet = true := fun x hx => hq' x (List.mem_cons_of_mem e hx)
    cases e with
    | recv f =>
      cases f with
      | metadata p g =>
        rw [List.cons_append, streamLoop_cons_metadata, linesOf_cons_metadata]
        exact ih batch rest hpre
      | line l =>
        rw [List.cons_append, streamLoop_cons_line, linesOf_cons_line]
        split
        · have h1 := ih [] rest hpre
          refine ⟨?_, ?_⟩
          · rw [emitFlush_flushed_join, h1.1]
            simp
          · rw [emitFlush_core, h1.2]
        · have h1 := ih (batch ++ [lokiEntryOf l]) rest hpre
          refine ⟨?_, h1.2⟩
          rw [h1.1]
          simp
      | completion c => simp [Event.isQuiet] at he
    | tick =>
      rw [List.cons_append, streamLoop_cons_tick, linesOf_cons_tick]
      have h1 := ih [] rest hpre
      refine ⟨?_, ?_⟩
      · rw [emitFlush_flushed_join, h1.1]
        simp
      · rw [emitFlush_core, h1.2]
    | recvEOF => simp [Event.isQuiet] at he
    | recvErr => simp [Event.isQuiet] at he
    | cancel => simp [Event.isQuiet] at he

theorem streamLoop_published_nil (bs rid uid : Nat) (ai : AIStatus) (hq : Bool) :
    ∀ (events : List Event) (batch : List LokiEntry),
      (streamLoop bs rid uid ai hq batch events).published = [] := by
  intro events
  induction events with
  | nil => intro batch; rfl
  | cons e rest ih =>
    intro batch
    cases e with
    | recv f =>
      cases f with
      | metadata p g => rw [streamLoop_cons_metadata]; exact ih batch
      | line l =>
        rw [streamLoop_cons_line]
        split
        · have := emitFlush_core (batch ++ [lokiEntryOf l])
            (streamLoop bs rid uid ai hq [] rest)
          have h2 := congrArg (fun x => x.2.2.1) this
          simpa [Trace.core, ih []] using h2
        · exact ih (batch ++ [lokiEntryOf l])
      | completion c =>
        rw [streamLoop_cons_completion]
        have := emitFlush_core batch
          { Trace.done Outcome.ok with
            finalized := [(statusForExit c, some c)]
            tasks := if ai = AIStatus.pending ∧ hq = true then [(rid, uid)] else [] }
        have h2 := congrArg (fun x => x.2.2.1) this
        simpa [Trace.core, Trace.done] using h2
    | tick =>
      rw [streamLoop_cons_tick]
      have := emitFlush_core batch (streamLoop bs rid uid ai hq [] rest)
      have h2 := congrArg (fun x => x.2.2.1) this
      simpa [Trace.core, ih []] using h2
    | recvEOF =>
      rw [streamLoop_cons_eof]
      have := emitFlush_core batch (Trace.done Outcome.ok)
      have h2 := congrArg (fun x => x.2.2.1) this
      simpa [Trace.core, Trace.done] using h2
    | recvErr =>
      rw [streamLoop_cons_err]
      have := emitFlush_core batch
        { Trace.done Outcome.errInternal with
          finalized := [(RunStatus.aborted, Option.none)] }
      have h2 := congrArg (fun x => x.2.2.1) this
      simpa [Trace.core, Trace.done] using h2
    | cancel =>
      rw [streamLoop_cons_cancel]
      have := emitFlush_core batch (Trace.done Outcome.errCanceled)
      have h2 := congrArg (fun x => x.2.2.1) this
      simpa [Trace.core, Trace.done] using h2

theorem streamLoop_finalized_length (bs rid uid : Nat) (ai : AIStatus) (hq : Bool) :
    ∀ (events : List Event) (batch : List LokiEntry),
      ((streamLoop bs rid uid ai hq batch events).finalized).length ≤ 1 := by
  intro events
  induction events with
  | nil => intro batch; simp [streamLoop_nil, Trace.done]
  | cons e rest ih =>
    intro batch
    have hfin : ∀ (b : List LokiEntry) (t : Trace), (emitFlush b t).finalized = t.finalized :=
      fun b t => congrArg (fun x => x.1) (emitFlush_core b t)
    cases e with
    | recv f =>
      cases f with
      | metadata p g => rw [streamLoop_cons_metadata]; exact ih batch
      | line l =>
        rw [streamLoop_cons_line]
        split
        · rw [hfin]; exact ih []
        · exact ih (batch ++ [lokiEntryOf l])
      | completion c => rw [streamLoop_cons_completion, hfin]; simp [Trace.done]
    | tick => rw [streamLoop_cons_tick, hfin]; exact ih []
    | recvEOF => rw [streamLoop_cons_eof, hfin]; simp [Trace.done]
    | recvErr => rw [streamLoop_cons_err, hfin]; simp [Trace.done]
    | cancel => rw [streamLoop_cons_cancel, hfin]; simp [Trace.done]

/-! ## Claim C1 -/

/-- C1.  On every ingestion stream whose first terminating occurrence is a
`Completion` frame with exit code `c` — after any interleaving of `Line`
frames, ignored extra `Metadata` frames and ticker flushes — `StreamLog`
flushes every batched line to the LogStore, issues exactly the finalize call
`UpdateStatus(status, &c)` with `status = completed` when `c = 0` and
`status = failed` otherwise (for every value of `c`), and the finalized run
has `exit_code = c` and a non-NULL `end_time`. -/
theorem c1_completion_finalizes (bs rid uid now : Nat) (hq : Bool)
    (settings : Option EffectiveSettings) (pn gn : String)
    (pre post : List Event) (c : Int) (res : StreamResult)
    (hpre : ∀ e ∈ pre, e.isQuiet = true)
    (hres : res = StreamLog bs rid hq (some uid) settings
      (FirstRecv.frame (Frame.metadata pn gn))
      (pre ++ Event.recv (Frame.completion c) :: post)) :
    res.trace.outcome = Outcome.ok ∧
    res.trace.finalized = [(statusForExit c, some c)] ∧
    statusForExit c = (if c = 0 then RunStatus.completed else RunStatus.failed) ∧
    res.trace.flushed.join = linesOf pre ∧
    applyFinalized now res.trace.finalized (createRun (initialAIStatusOf settings)) =
      { status := statusForExit c
        exitCode := some c
        endTime := some now
        aiStatus := initialAIStatusOf settings } := by
  subst hres
  have hspec := streamLoop_spec bs rid uid (initialAIStatusOf settings) hq
    (Event.recv (Frame.completion c)) _ rfl pre [] post hpre
  have htr : StreamLog bs rid hq (some uid) settings
      (FirstRecv.frame (Frame.metadata pn gn))
      (pre ++ Event.recv (Frame.completion c) :: post) =
      { createdRun := some (createRun (initialAIStatusOf settings))
        startedSent := true
        trace := streamLoop bs rid uid (initialAIStatusOf settings) hq []
          (pre ++ Event.recv (Frame.completion c) :: post) } := rfl
  rw [htr]
  have hfin := congrArg (fun x => x.1) hspec.2
  have hout := congrArg (fun x => x.2.2.2) hspec.2
  simp only [Trace.core] at hfin hout
  refine ⟨hout, hfin, rfl, by simpa using hspec.1, ?_⟩
  rw [hfin]
  simp [applyFinalized, UpdateStatus, createRun]

/-- Witness for C1 at a concrete stream: one line then `Completion{2}`. -/
theorem c1_witness :
    (∀ e ∈ [Event.recv (Frame.line ⟨1, Level.stdout, "a"⟩)], e.isQuiet = true) ∧
    ((StreamLog 100 7 true (some 3) Option.none
        (FirstRecv.frame (Frame.metadata "p" "g"))
        ([Event.recv (Frame.line ⟨1, Level.stdout, "a"⟩)] ++
          Event.recv (Frame.completion 2) :: [])).trace.outcome = Outcome.ok ∧
      (StreamLog 100 7 true (some 3) Option.none
        (FirstRecv.frame (Frame.metadata "p" "g"))
        ([Event.recv (Frame.line ⟨1, Level.stdout, "a"⟩)] ++
          Event.recv (Frame.completion 2) :: [])).trace.finalized =
        [(statusForExit 2, some 2)] ∧
      statusForExit 2 = (if (2 : Int) = 0 then RunStatus.completed else RunStatus.failed) ∧
      (StreamLog 100 7 true (some 3) Option.none
        (FirstRecv.frame (Frame.metadata "p" "g"))
        ([Event.recv (Frame.line ⟨1, Level.stdout, "a"⟩)] ++
          Event.recv (Frame.completion 2) :: [])).trace.flushed.join =
        linesOf [Event.recv (Frame.line ⟨1, Level.stdout, "a"⟩)] ∧
      applyFinalized 5
        (StreamLog 100 7 true (some 3) Option.none
          (FirstRecv.frame (Frame.metadata "p" "g"))
          ([Event.recv (Frame.line ⟨1, Level.stdout, "a"⟩)] ++
            Event.recv (Frame.completion 2) :: [])).trace.finalized
        (createRun (initialAIStatusOf Option.none)) =
        { status := statusForExit 2
          exitCode := some 2
          endTime := some 5
          aiStatus := initialAIStatusOf Option.none }) :=
  ⟨by decide,
    c1_completion_finalizes 100 7 3 5 true Option.none "p" "g"
      [Event.recv (Frame.line ⟨1, Level.stdout, "a"⟩)] [] 2 _ (by decide) rfl⟩

/-! ## Claim C2 -/

/-- C2 as stated is false on the code: a client that cleanly closes the
transport (`Recv` returns `io.EOF`) after the run was created and one `Line`
frame was received, without `Completion`, gets its buffered line flushed but
the run is NOT finalized — `StreamLog` returns nil without any
`UpdateStatus` call, so the run keeps `status = running`, `exit_code = NULL`
and `end_time = NULL`. -/
theorem c2_counterexample :
    (StreamLog 100 7 true (some 3) Option.none
        (FirstRecv.frame (Frame.metadata "p" "g"))
        [Event.recv (Frame.line ⟨1, Level.stdout, "a"⟩),
          Event.recvEOF]).trace.finalized = [] ∧
    ¬ (RunStatus.aborted, (Option.none : Option Int)) ∈
        (StreamLog 100 7 true (some 3) Option.none
          (FirstRecv.frame (Frame.metadata "p" "g"))
          [Event.recv (Frame.line ⟨1, Level.stdout, "a"⟩),
            Event.recvEOF]).trace.finalized ∧
    (StreamLog 100 7 true (some 3) Option.none
        (FirstRecv.frame (Frame.metadata "p" "g"))
        [Event.recv (Frame.line ⟨1, Level.stdout, "a"⟩),
          Event.recvEOF]).trace.flushed.join =
      [lokiEntryOf ⟨1, Level.stdout, "a"⟩] ∧
    (applyFinalized 9
        (StreamLog 100 7 true (some 3) Option.none
          (FirstRecv.frame (Frame.metadata "p" "g"))
          [Event.recv (Frame.line ⟨1, Level.stdout, "a"⟩),
            Event.recvEOF]).trace.finalized
        (createRun AIStatus.none)).endTime = Option.none := by
  exact ⟨rfl, by decide, rfl, rfl⟩

/-- C2 amended.  After the run is created: only a stream-level `Recv` ERROR
triggers the abort path — buffered lines are flushed best-effort, the single
finalize call `UpdateStatus(aborted, nil)` leaves the run with
`status = aborted`, `exit_code = NULL` and `end_time` set, and the stream
returns an Internal error.  A clean client close (`io.EOF`) without
`Completion` flushes the buffered lines but performs no finalize at all, so
the run stays `running` with `end_time = NULL`. -/
theorem c2_abort_on_stream_error (bs rid uid now : Nat) (hq : Bool)
    (settings : Option EffectiveSettings) (pn gn : String)
    (pre post : List Event) (resErr resEOF : StreamResult)
    (hpre : ∀ e ∈ pre, e.isQuiet = true)
    (hresErr : resErr = StreamLog bs rid hq (some uid) settings
      (FirstRecv.frame (Frame.metadata pn gn)) (pre ++ Event.recvErr :: post))
    (hresEOF : resEOF = StreamLog bs rid hq (some uid) settings
      (FirstRecv.frame (Frame.metadata pn gn)) (pre ++ Event.recvEOF :: post)) :
    resErr.trace.finalized = [(RunStatus.aborted, Option.none)] ∧
    resErr.trace.flushed.join = linesOf pre ∧
    resErr.trace.outcome = Outcome.errInternal ∧
    applyFinalized now resErr.trace.finalized (createRun (initialAIStatusOf settings)) =
      { status := RunStatus.aborted
        exitCode := Option.none
        endTime := some now
        aiStatus := initialAIStatusOf settings } ∧
    resEOF.trace.finalized = [] ∧
    resEOF.trace.flushed.join = linesOf pre ∧
    resEOF.trace.outcome = Outcome.ok ∧
    applyFinalized now resEOF.trace.finalized (createRun (initialAIStatusOf settings)) =
      createRun (initialAIStatusOf settings) := by
  subst hresErr hresEOF
  have hspecE := streamLoop_spec bs rid uid (initialAIStatusOf settings) hq
    Event.recvErr _ rfl pre [] post hpre
  have hspecO := streamLoop_spec bs rid uid (initialAIStatusOf settings) hq
    Event.recvEOF _ rfl pre [] post hpre
  have htrE : StreamLog bs rid hq (some uid) settings
      (FirstRecv.frame (Frame.metadata pn gn)) (pre ++ Event.recvErr :: post) =
      { createdRun := some (createRun (initialAIStatusOf settings))
        startedSent := true
        trace := streamLoop bs rid uid (initialAIStatusOf settings) hq []
          (pre ++ Event.recvErr :: post) } := rfl
  have htrO : StreamLog bs rid hq (some uid) settings
      (FirstRecv.frame (Frame.metadata pn gn)) (pre ++ Event.recvEOF :: post) =
      { createdRun := some (createRun (initialAIStatusOf settings))
        startedSent := true
        trace := streamLoop bs rid uid (initialAIStatusOf settings) hq []
          (pre ++ Event.recvEOF :: post) } := rfl
  rw [htrE, htrO]
  have hfinE := congrArg (fun x => x.1) hspecE.2
  have houtE := congrArg (fun x => x.2.2.2) hspecE.2
  have hfinO := congrArg (fun x => x.1) hspecO.2
  have houtO := congrArg (fun x => x.2.2.2) hspecO.2
  simp only [Trace.core, Trace.done] at hfinE houtE hfinO houtO
  refine ⟨hfinE, by simpa using hspecE.1, houtE, ?_, hfinO, by simpa using hspecO.1,
    houtO, ?_⟩
  · rw [hfinE]
    simp [applyFinalized, UpdateStatus, createRun]
  · rw [hfinO]
    simp [applyFinalized]

/-- Witness for the amended C2 at a concrete stream: one line, then a
stream error (respectively a clean close). -/
theorem c2_abort_witness :
    (∀ e ∈ [Event.recv (Frame.line ⟨1, Level.stderr, "b"⟩)], e.isQuiet = true) ∧
    ((StreamLog 100 7 true (some 3) Option.none
        (FirstRecv.frame (Frame.metadata "p" "g"))
        ([Event.recv (Frame.line ⟨1, Level.stderr, "b"⟩)] ++
          Event.recvErr :: [])).trace.finalized =
        [(RunStatus.aborted, Option.none)] ∧
      (StreamLog 100 7 true (some 3) Option.none
        (FirstRecv.frame (Frame.metadata "p" "g"))
        ([Event.recv (Frame.line ⟨1, Level.stderr, "b"⟩)] ++
          Event.recvErr :: [])).trace.flushed.join =
        linesOf [Event.recv (Frame.line ⟨1, Level.stderr, "b"⟩)] ∧
      (StreamLog 100 7 true (some 3) Option.none
        (FirstRecv.frame (Frame.metadata "p" "g"))
        ([Event.recv (Frame.line ⟨1, Level.stderr, "b"⟩)] ++
          Event.recvErr :: [])).trace.outcome = Outcome.errInternal ∧
      applyFinalized 9
        (StreamLog 100 7 true (some 3) Option.none
          (FirstRecv.frame (Frame.metadata "p" "g"))
          ([Event.recv (Frame.line ⟨1, Level.stderr, "b"⟩)] ++
            Event.recvErr :: [])).trace.finalized
        (createRun (initialAIStatusOf Option.none)) =
        { status := RunStatus.aborted
          exitCode := Option.none
          endTime := some 9
          aiStatus := initialAIStatusOf Option.none } ∧
      (StreamLog 100 7 true (some 3) Option.none
        (FirstRecv.frame (Frame.metadata "p" "g"))
        ([Event.recv (Frame.line ⟨1, Level.stderr, "b"⟩)] ++
          Event.recvEOF :: [])).trace.finalized = [] ∧
      (StreamLog 100 7 true (some 3) Option.none
        (FirstRecv.frame (Frame.metadata "p" "g"))
        ([Event.recv (Frame.line ⟨1, Level.stderr, "b"⟩)] ++
          Event.recvEOF :: [])).trace.flushed.join =
        linesOf [Event.recv (Frame.line ⟨1, Level.stderr, "b"⟩)] ∧
      (StreamLog 100 7 true (some 3) Option.none
        (FirstRecv.frame (Frame.metadata "p" "g"))
        ([Event.recv (Frame.line ⟨1, Level.stderr, "b"⟩)] ++
          Event.recvEOF :: [])).trace.outcome = Outcome.ok ∧
      applyFinalized 9
        (StreamLog 100 7 true (some 3) Option.none
          (FirstRecv.frame (Frame.metadata "p" "g"))
          ([Event.recv (Frame.line ⟨1, Level.stderr, "b"⟩)] ++
            Event.recvEOF :: [])).trace.finalized
        (createRun (initialAIStatusOf Option.none)) =
        createRun (initialAIStatusOf Option.none)) :=
  ⟨by decide,
    c2_abort_on_stream_error 100 7 3 9 true Option.none "p" "g"
      [Event.recv (Frame.line ⟨1, Level.stderr, "b"⟩)] [] _ _ (by decide) rfl rfl⟩

/-! ## Claim C3 -/

/-- C3.  The run is created with initial `ai_status = pending` exactly when
effective settings were resolved with `AIEnabled` and `AIAutoAnalyze` both
true (and with `ai_status = none` otherwise), and on `Completion` the
analysis task `(run_id, user_id)` is enqueued if and only if the created run
had initial `ai_status = pending` (with a task queue configured, as the
server wiring always does). -/
theorem c3_auto_analyze (bs rid uid : Nat) (settings : Option EffectiveSettings)
    (pn gn : String) (pre post : List Event) (c : Int) (res : StreamResult)
    (hpre : ∀ e ∈ pre, e.isQuiet = true)
    (hres : res = StreamLog bs rid true (some uid) settings
      (FirstRecv.frame (Frame.metadata pn gn))
      (pre ++ Event.recv (Frame.completion c) :: post)) :
    res.createdRun = some (createRun (initialAIStatusOf settings)) ∧
    ((createRun (initialAIStatusOf settings)).aiStatus = AIStatus.pending ↔
      ∃ es, settings = some es ∧ es.aiEnabled = true ∧ es.aiAutoAnalyze = true) ∧
    ((createRun (initialAIStatusOf settings)).aiStatus ≠ AIStatus.pending →
      (createRun (initialAIStatusOf settings)).aiStatus = AIStatus.none) ∧
    (res.trace.tasks = [(rid, uid)] ↔
      (createRun (initialAIStatusOf settings)).aiStatus = AIStatus.pending) ∧
    (res.trace.tasks = [] ↔
      (createRun (initialAIStatusOf settings)).aiStatus ≠ AIStatus.pending) := by
  subst hres
  have hspec := streamLoop_spec bs rid uid (initialAIStatusOf settings) true
    (Event.recv (Frame.completion c)) _ rfl pre [] post hpre
  have htr : StreamLog bs rid true (some uid) settings
      (FirstRecv.frame (Frame.metadata pn gn))
      (pre ++ Event.recv (Frame.completion c) :: post) =
      { createdRun := some (createRun (initialAIStatusOf settings))
        startedSent := true
        trace := streamLoop bs rid uid (initialAIStatusOf settings) true []
          (pre ++ Event.recv (Frame.completion c) :: post) } := rfl
  rw [htr]
  have htasks := congrArg (fun x => x.2.1) hspec.2
  simp only [Trace.core] at htasks
  have hai : (createRun (initialAIStatusOf settings)).aiStatus =
      initialAIStatusOf settings := rfl
  refine ⟨rfl, ?_, ?_, ?_, ?_⟩
  · rw [hai]
    cases settings with
    | none => simp [initialAIStatusOf]
    | some es =>
      cases he : es.aiEnabled <;> cases ha : es.aiAutoAnalyze <;>
        simp [initialAIStatusOf, he, ha]
  · rw [hai]
    cases settings with
    | none => intro _; rfl
    | some es =>
      unfold initialAIStatusOf
      split <;> simp
  · rw [hai, htasks]
    by_cases hp : initialAIStatusOf settings = AIStatus.pending <;> simp [hp]
  · rw [hai, htasks]
    by_cases hp : initialAIStatusOf settings = AIStatus.pending <;> simp [hp]

/-- Witness for C3 with auto-analyze enabled: the run starts pending and the
task `(7, 3)` is enqueued on completion. -/
theorem c3_witness :
    (∀ e ∈ ([] : List Event), e.isQuiet = true) ∧
    ((StreamLog 100 7 true (some 3) (some esAuto)
        (FirstRecv.frame (Frame.metadata "p" "g"))
        ([] ++ Event.recv (Frame.completion 0) :: [])).createdRun =
      some (createRun (initialAIStatusOf (some esAuto))) ∧
      ((createRun (initialAIStatusOf (some esAuto))).aiStatus = AIStatus.pending ↔
        ∃ es, (some esAuto : Option EffectiveSettings) = some es ∧
          es.aiEnabled = true ∧ es.aiAutoAnalyze = true) ∧
      ((createRun (initialAIStatusOf (some esAuto))).aiStatus ≠ AIStatus.pending →
        (createRun (initialAIStatusOf (some esAuto))).aiStatus = AIStatus.none) ∧
      ((StreamLog 100 7 true (some 3) (some esAuto)
        (FirstRecv.frame (Frame.metadata "p" "g"))
        ([] ++ Event.recv (Frame.completion 0) :: [])).trace.tasks = [(7, 3)] ↔
        (createRun (initialAIStatusOf (some esAuto))).aiStatus = AIStatus.pending) ∧
      ((StreamLog 100 7 true (some 3) (some esAuto)
        (FirstRecv.frame (Frame.metadata "p" "g"))
        ([] ++ Event.recv (Frame.completion 0) :: [])).trace.tasks = [] ↔
        (createRun (initialAIStatusOf (some esAuto))).aiStatus ≠ AIStatus.pending)) :=
  ⟨by decide,
    c3_auto_analyze 100 7 3 (some esAuto) "p" "g" [] [] 0 _ (by decide) rfl⟩

/-! ## Claim C7 -/

/-- C7 as stated is false on the code: `UpdateStatus` has no guard on the
current status.  A run already finalized as `completed` (a terminal state)
is overwritten to `aborted` by a second call, so the status does leave the
terminal state and no transition is rejected. -/
theorem c7_counterexample :
    (UpdateStatus 5 RunStatus.completed (some 0) (createRun AIStatus.none)).status =
      RunStatus.completed ∧
    (UpdateStatus 9 RunStatus.aborted Option.none
        (UpdateStatus 5 RunStatus.completed (some 0) (createRun AIStatus.none))).status =
      RunStatus.aborted ∧
    RunStatus.aborted ≠ RunStatus.completed ∧
    (UpdateStatus 9 RunStatus.aborted Option.none
        (UpdateStatus 5 RunStatus.completed (some 0) (createRun AIStatus.none))).exitCode =
      Option.none :=
  ⟨rfl, rfl, by decide, rfl⟩

/-- C7 amended.  `LogRunRepository.UpdateStatus` sets `end_time = now()` and
overwrites status and exit code unconditionally — it never rejects a
transition, so a later call can move a run out of a terminal state.  What
does hold: within one `StreamLog` stream at most one finalize call is ever
issued, so the per-stream status history is `running` followed by at most
one of completed/failed/aborted. -/
theorem c7_update_status_unconditional :
    (∀ (now : Nat) (st : RunStatus) (e : Option Int) (r : Run),
      UpdateStatus now st e r =
        { status := st, exitCode := e, endTime := some now, aiStatus := r.aiStatus }) ∧
    (∀ (bs rid : Nat) (hq : Bool) (auth : Option Nat)
        (settings : Option EffectiveSettings) (first : FirstRecv) (events : List Event),
      ((StreamLog bs rid hq auth settings first events).trace.finalized).length ≤ 1) := by
  constructor
  · intro now st e r
    rfl
  · intro bs rid hq auth settings first events
    cases auth with
    | none => simp [StreamLog, Trace.done]
    | some uid =>
      cases first with
      | failed => simp [StreamLog, Trace.done]
      | frame f =>
        cases f with
        | metadata p g => exact streamLoop_finalized_length bs rid uid _ hq events []
        | line l => simp [StreamLog, Trace.done]
        | completion c => simp [StreamLog, Trace.done]

/-! ## Claim C8 -/

/-- C8 is a bug in the code: `websocket.PublishLog` carries the doc comment
"called by Ingestor" and the architecture document lists publishing events
to Redis among the Ingestor duties, but no caller of `PublishLog` exists
anywhere in the source — handling a `Line` frame only appends to the Loki
batch.  At the concrete failing stream (metadata, one line, completion) the
line is batched and flushed, yet the set of event-bus publications is empty
instead of holding the `Log` message `PublishLog` would have built. -/
theorem c8_no_per_line_publish :
    (StreamLog 100 7 true (some 3) Option.none
        (FirstRecv.frame (Frame.metadata "p" "g"))
        [Event.recv (Frame.line ⟨1, Level.stdout, "hello"⟩),
          Event.recv (Frame.completion 0)]).trace.published = [] ∧
    (StreamLog 100 7 true (some 3) Option.none
        (FirstRecv.frame (Frame.metadata "p" "g"))
        [Event.recv (Frame.line ⟨1, Level.stdout, "hello"⟩),
          Event.recv (Frame.completion 0)]).trace.flushed.join =
      [lokiEntryOf ⟨1, Level.stdout, "hello"⟩] ∧
    [mkPublishLogMessage 7 1 "STDOUT" "hello"] ≠
      (StreamLog 100 7 true (some 3) Option.none
        (FirstRecv.frame (Frame.metadata "p" "g"))
        [Event.recv (Frame.line ⟨1, Level.stdout, "hello"⟩),
          Event.recv (Frame.completion 0)]).trace.published ∧
    (∀ (bs rid : Nat) (hq : Bool) (auth : Option Nat)
        (settings : Option EffectiveSettings) (first : FirstRecv) (events : List Event),
      (StreamLog bs rid hq auth settings first events).trace.published = []) := by
  refine ⟨rfl, rfl, by decide, ?_⟩
  intro bs rid hq auth settings first events
  cases auth with
  | none => rfl
  | some uid =>
    cases first with
    | failed => rfl
    | frame f =>
      cases f with
      | metadata p g => exact streamLoop_published_nil bs rid uid _ hq events []
      | line l => rfl
      | completion c => rfl

/-! ## Claim C9 -/

/-- C9 as stated is false on the code for its second half: a second
`Metadata` frame received after the first is silently discarded — it matches
neither `GetLine` nor `GetCompletion` in the receive loop — rather than
being answered with an InvalidArgument error and a closed stream.  The
concrete stream metadata, metadata, `Completion{0}` ends with outcome ok and
a normal completed finalize. -/
theorem c9_counterexample :
    (StreamLog 100 7 true (some 3) Option.none
        (FirstRecv.frame (Frame.metadata "p" "g"))
        [Event.recv (Frame.metadata "q" "h"),
          Event.recv (Frame.completion 0)]).trace.outcome = Outcome.ok ∧
    (StreamLog 100 7 true (some 3) Option.none
        (FirstRecv.frame (Frame.metadata "p" "g"))
        [Event.recv (Frame.metadata "q" "h"),
          Event.recv (Frame.completion 0)]).trace.outcome ≠
      Outcome.errInvalidArgument ∧
    (StreamLog 100 7 true (some 3) Option.none
        (FirstRecv.frame (Frame.metadata "p" "g"))
        [Event.recv (Frame.metadata "q" "h"),
          Event.recv (Frame.completion 0)]).trace.finalized =
      [(RunStatus.completed, some 0)] :=
  ⟨rfl, by decide, rfl⟩

/-- C9 amended.  A first frame that is not `Metadata` is rejected with an
InvalidArgument-class error and no run is created (first half of the claim,
which holds).  A second `Metadata` frame, however, is silently ignored by
the receive loop: processing it leaves the loop state completely
unchanged. -/
theorem c9_first_frame_metadata (bs rid uid : Nat) (hq : Bool)
    (settings : Option EffectiveSettings) :
    (∀ (f : Frame) (events : List Event),
      (∀ p g, f ≠ Frame.metadata p g) →
      StreamLog bs rid hq (some uid) settings (FirstRecv.frame f) events =
        { createdRun := Option.none
          startedSent := false
          trace := Trace.done Outcome.errInvalidArgument }) ∧
    (∀ (ai : AIStatus) (batch : List LokiEntry) (p g : String) (events : List Event),
      streamLoop bs rid uid ai hq batch (Event.recv (Frame.metadata p g) :: events) =
        streamLoop bs rid uid ai hq batch events) := by
  constructor
  · intro f events hne
    cases f with
    | metadata p g => exact absurd rfl (hne p g)
    | line l => rfl
    | completion c => rfl
  · intro ai batch p g events
    exact streamLoop_cons_metadata bs rid uid ai hq batch p g events

/-- Witness for the amended C9: a stream whose first frame is
`Completion{2}` is rejected with InvalidArgument and creates no run. -/
theorem c9_witness :
    StreamLog 100 7 true (some 3) Option.none
        (FirstRecv.frame (Frame.completion 2)) [] =
      { createdRun := Option.none
        startedSent := false
        trace := Trace.done Outcome.errInvalidArgument } :=
  (c9_first_frame_metadata 100 7 3 true Option.none).1 (Frame.completion 2) []
    (fun _ _ h => Frame.noConfusion h)

/-! ## Claim C4 -/

theorem normalizeAPIKeyUpdate_ne_empty (req current : Option String)
    (h : current ≠ some "") : normalizeAPIKeyUpdate req current ≠ some "" := by
  cases req with
  | none => simpa [normalizeAPIKeyUpdate] using h
  | some s =>
    by_cases hs : s = "" <;> simp [normalizeAPIKeyUpdate, hs]

/-- The override chain of `GetEffectiveSettings`, evaluated field by field:
every field is the project value when non-null and the user value otherwise,
and the source is "merged" exactly when some field is non-null. -/
theorem GetEffectiveSettings_some (user : UserSettings) (p : ProjectSettings) :
    GetEffectiveSettings user (some p) =
      { aiEnabled := p.aiEnabled.getD user.aiEnabled
        aiBaseURL := p.aiBaseURL.getD user.aiBaseURL
        aiAPIKey := p.aiAPIKey.getD (nullStringToString user.aiAPIKey)
        aiModel := p.aiModel.getD user.aiModel
        aiMaxTokens := p.aiMaxTokens.getD user.aiMaxTokens
        aiAutoAnalyze := p.aiAutoAnalyze.getD user.aiAutoAnalyze
        aiMaxLogLines := p.aiMaxLogLines.getD user.aiMaxLogLines
        aiLogTruncateStrategy := p.aiLogTruncateStrategy.getD user.aiLogTruncateStrategy
        aiSystemPrompt := p.aiSystemPrompt.getD user.aiSystemPrompt
        source := if anyOverride p then "merged" else "user" } := by
  obtain ⟨e, b, k, m, t, a, l, sgy, sp⟩ := p
  cases e <;> cases b <;> cases k <;> cases m <;> cases t <;> cases a <;> cases l <;>
    cases sgy <;> cases sp <;> rfl

/-- C4.  For every stored user settings row and every project,
`GetEffectiveSettings` equals the field-by-field left-overlay of the
non-null project fields onto the user settings, with source tag "user" when
no project field applied and "merged" otherwise, and with the resolved API
key equal to the first non-empty of the project key then the user key.  The
hypothesis that a stored project key is never the empty string is
established by the settings handlers (`normalizeAPIKeyUpdate` maps "" to
NULL), and is required: on a hypothetical row with an empty non-null key the
code would resolve the key to "" while the first-non-empty reading would
fall back to the user key. -/
theorem c4_effective_settings (user : UserSettings) (project : Option ProjectSettings)
    (hkey : ∀ p, project = some p → p.aiAPIKey ≠ some "") :
    GetEffectiveSettings user project = effectiveSettingsSpec user project := by
  cases project with
  | none => rfl
  | some p =>
    rw [GetEffectiveSettings_some]
    have hk := hkey p rfl
    cases hka : p.aiAPIKey with
    | none =>
      simp [effectiveSettingsSpec, firstNonEmptyKey, nullStringToString, hka]
    | some v =>
      have hv : v ≠ "" := by
        intro h
        exact hk (by rw [hka, h])
      simp [effectiveSettingsSpec, firstNonEmptyKey, nullStringToString, hka, hv]

/-- Witness for C4 at scenario S6: overlaying `projS6` on `userS6` and the
concrete merged result (model gpt-4, 500 max tokens, 200 max log lines,
tail truncation, source merged, key inherited from the user). -/
theorem c4_witness :
    (∀ p, (some projS6 : Option ProjectSettings) = some p → p.aiAPIKey ≠ some "") ∧
    GetEffectiveSettings userS6 (some projS6) =
      effectiveSettingsSpec userS6 (some projS6) ∧
    GetEffectiveSettings userS6 (some projS6) =
      { aiEnabled := true
        aiBaseURL := "https://api.openai.com/v1"
        aiAPIKey := "uk"
        aiModel := "gpt-4"
        aiMaxTokens := 500
        aiAutoAnalyze := false
        aiMaxLogLines := 200
        aiLogTruncateStrategy := "tail"
        aiSystemPrompt := "sys"
        source := "merged" } :=
  ⟨fun p hp => (Option.some_inj.mp hp) ▸ (by decide),
    c4_effective_settings userS6 (some projS6)
      (fun p hp => (Option.some_inj.mp hp) ▸ (by decide)),
    by decide⟩

/-! ## Claim C5 -/

theorem joinNl_nil : joinNl [] = "" := rfl

theorem joinNl_cons (x : String) (xs : List String) :
    joinNl (x :: xs) = x ++ "\n" ++ joinNl xs := rfl

theorem writeRange_window (logs : List String) :
    ∀ (n lo : Nat), lo + n ≤ logs.length →
      writeRange logs lo (lo + n) = joinNl ((logs.drop lo).take n) := by
  intro n
  induction n with
  | zero =>
    intro lo h
    unfold writeRange
    rw [if_neg (by omega)]
    simp [joinNl]
  | succ k ih =>
    intro lo h
    unfold writeRange
    rw [if_pos (by omega)]
    have hlo : lo < logs.length := by omega
    have hdrop : logs.drop lo = logs[lo] :: logs.drop (lo + 1) :=
      List.drop_eq_getElem_cons hlo
    rw [hdrop]
    rw [List.take_succ_cons, joinNl_cons]
    rw [List.getD_eq_getElem logs "" hlo]
    rw [show lo + (k + 1) = (lo + 1) + k by omega]
    rw [ih (lo + 1) (by omega)]

theorem writeRange_front (logs : List String) (m : Nat) (h : m ≤ logs.length) :
    writeRange logs 0 m = joinNl (logs.take m) := by
  have := writeRange_window logs m 0 (by omega)
  simpa using this

theorem writeRange_suffix (logs : List String) (k : Nat) (h : k ≤ logs.length) :
    writeRange logs (logs.length - k) logs.length =
      joinNl (logs.drop (logs.length - k)) := by
  have h1 : logs.length - k + k ≤ logs.length := by omega
  have := writeRange_window logs k (logs.length - k) h1
  rw [show logs.length - k + k = logs.length by omega] at this
  rw [this]
  have hlen : (logs.drop (logs.length - k)).length = k := by
    simp
    omega
  rw [List.take_of_length_le (le_of_eq hlen)]

/-- C5.  For every list of log lines longer than `max_lines`:
`head` yields the first `max_lines` lines followed by the marker line
`... [N lines omitted] ...` with `N = length - max_lines`; `tail` yields the
marker followed by the last `max_lines` lines; `smart` yields the first
`⌊0.4 * max_lines⌋` lines, the marker, then the last
`max_lines - ⌊0.4 * max_lines⌋` lines; every unknown strategy behaves
exactly as `tail`; and when the length is at most `max_lines` every strategy
returns the lines joined unchanged with no marker. -/
theorem c5_truncation (logs : List String) (maxLines : Nat) :
    (maxLines < logs.length →
      prepareLogs logs maxLines "head" =
        joinNl (logs.take maxLines) ++ "\n" ++
          ("... [" ++ toString (logs.length - maxLines) ++ " lines omitted] ...") ++
          "\n" ∧
      prepareLogs logs maxLines "tail" =
        ("... [" ++ toString (logs.length - maxLines) ++ " lines omitted] ...") ++
          "\n\n" ++ joinNl (logs.drop (logs.length - maxLines)) ∧
      prepareLogs logs maxLines "smart" =
        joinNl (logs.take (2 * maxLines / 5)) ++ "\n" ++
          ("... [" ++ toString (logs.length - maxLines) ++ " lines omitted] ...") ++
          "\n\n" ++
          joinNl (logs.drop (logs.length - (maxLines - 2 * maxLines / 5))) ∧
      (∀ strategy : String, strategy ≠ "head" → strategy ≠ "tail" →
        strategy ≠ "smart" →
        prepareLogs logs maxLines strategy = prepareLogs logs maxLines "tail")) ∧
    (logs.length ≤ maxLines →
      ∀ strategy : String,
        prepareLogs logs maxLines strategy = String.intercalate "\n" logs) := by
  constructor
  · intro h
    have hnotle : ¬ logs.length ≤ maxLines := by omega
    refine ⟨?_, ?_, ?_, ?_⟩
    · show prepareLogs logs maxLines "head" = _
      unfold prepareLogs
      rw [if_neg hnotle, if_pos rfl]
      rw [min_eq_left (le_of_lt h)]
      rw [writeRange_front logs maxLines (le_of_lt h)]
      rfl
    · show prepareLogs logs maxLines "tail" = _
      unfold prepareLogs
      rw [if_neg hnotle, if_neg (by decide), if_pos rfl]
      rw [writeRange_suffix logs maxLines (le_of_lt h)]
      rfl
    · show prepareLogs logs maxLines "smart" = _
      unfold prepareLogs
      rw [if_neg hnotle, if_neg (by decide), if_neg (by decide), if_pos rfl]
      have h1 : 2 * maxLines / 5 ≤ logs.length := by omega
      have h2 : maxLines - 2 * maxLines / 5 ≤ logs.length := by omega
      show writeRange logs 0 (2 * maxLines / 5) ++ "\n" ++
          omittedMarker (logs.length - maxLines) ++ "\n\n" ++
          writeRange logs (logs.length - (maxLines - 2 * maxLines / 5)) logs.length = _
      rw [writeRange_front logs (2 * maxLines / 5) h1]
      rw [writeRange_suffix logs (maxLines - 2 * maxLines / 5) h2]
      rfl
    · intro strategy hs1 hs2 hs3
      conv_lhs => unfold prepareLogs
      conv_rhs => unfold prepareLogs
      rw [if_neg hnotle, if_neg hs1, if_neg hs2, if_neg hs3]
      rw [if_neg hnotle, if_neg (by decide), if_pos rfl]
  · intro h strategy
    unfold prepareLogs
    rw [if_pos h]

/-- Witness for C5 at `logs = ["a", "b", "c"]`, `max_lines = 2`: the head
truncation and the unknown-strategy fallback, together with the untruncated
case at `max_lines = 5`. -/
theorem c5_witness :
    ((2 : Nat) < (["a", "b", "c"] : List String).length) ∧
    prepareLogs ["a", "b", "c"] 2 "head" =
      joinNl ((["a", "b", "c"] : List String).take 2) ++ "\n" ++
        ("... [" ++ toString ((["a", "b", "c"] : List String).length - 2) ++
          " lines omitted] ...") ++ "\n" ∧
    prepareLogs ["a", "b", "c"] 2 "weird" = prepareLogs ["a", "b", "c"] 2 "tail" ∧
    prepareLogs ["a", "b", "c"] 5 "head" = String.intercalate "\n" ["a", "b", "c"] :=
  ⟨by decide,
    ((c5_truncation ["a", "b", "c"] 2).1 (by decide)).1,
    ((c5_truncation ["a", "b", "c"] 2).1 (by decide)).2.2.2 "weird" (by decide)
      (by decide) (by decide),
    (c5_truncation ["a", "b", "c"] 5).2 (by decide) "head"⟩

/-! ## Claim C10 -/

theorem marshalChars_stdout (cs : List Char) (h : cs ≠ []) :
    marshalChars ('[' :: 'S' :: 'T' :: 'D' :: 'O' :: 'U' :: 'T' :: ']' :: ' ' :: cs) =
      ("STDOUT".data, cs) := by
  have hlen : 0 < cs.length := List.length_pos.mpr h
  unfold marshalChars
  rw [if_pos ⟨by simp only [List.length_cons]; omega, rfl⟩]
  rw [if_pos ⟨by simp only [List.length_cons]; omega, rfl⟩]
  rfl

theorem marshalChars_stderr (cs : List Char) (h : cs ≠ []) :
    marshalChars ('[' :: 'S' :: 'T' :: 'D' :: 'E' :: 'R' :: 'R' :: ']' :: ' ' :: cs) =
      ("STDERR".data, cs) := by
  have hlen : 0 < cs.length := List.length_pos.mpr h
  have hne : ¬((9 : Nat) <
        ('[' :: 'S' :: 'T' :: 'D' :: 'E' :: 'R' :: 'R' :: ']' :: ' ' :: cs).length ∧
      (('[' :: 'S' :: 'T' :: 'D' :: 'E' :: 'R' :: 'R' :: ']' :: ' ' :: cs).drop 1).take 8 =
        "STDOUT] ".data) := by
    intro hcontra
    have h2 := hcontra.2
    rw [show (('[' :: 'S' :: 'T' :: 'D' :: 'E' :: 'R' :: 'R' :: ']' :: ' ' :: cs).drop 1).take 8 =
      ['S', 'T', 'D', 'E', 'R', 'R', ']', ' '] from rfl] at h2
    exact absurd h2 (by decide)
  unfold marshalChars
  rw [if_pos ⟨by simp only [List.length_cons]; omega, rfl⟩]
  rw [if_neg hne]
  rw [if_pos ⟨by simp only [List.length_cons]; omega, rfl⟩]
  rfl

/-- C10 as stated is false on the code: for an empty content the stored line
is exactly the 9-character prefix, the `len > 9` guard of
`LogEntry.MarshalJSON` fails, and the whole line is reported with the
default level.  Concretely, a STDERR line with empty content comes back as
level "STDOUT" with content "[STDERR] " instead of level "STDERR" with
content "". -/
theorem c10_counterexample :
    formatLogLine Level.stderr "" = "[STDERR] " ∧
    marshalLevelContent (formatLogLine Level.stderr "") = ("STDOUT", "[STDERR] ") ∧
    ("STDOUT", ("[STDERR] " : String)) ≠ ("STDERR", "") := by
  refine ⟨rfl, by decide, by decide⟩

/-- C10 amended.  For every line ingested with level L in {STDOUT, STDERR}
the stored LogStore text is "[L] c" (`formatLogLine`), and serializing the
stored line recovers exactly level L and content c for every NON-EMPTY
content c; a stored line whose character sequence does not begin with
"[STDOUT] " or "[STDERR] " followed by at least one character — which
includes the two 9-character bare prefixes produced by empty contents — is
reported with level "STDOUT" and the full line text as its content. -/
theorem c10_level_content_roundtrip :
    (∀ (lvl : Level) (c : String), c ≠ "" →
      marshalLevelContent (formatLogLine lvl c) = (levelName lvl, c)) ∧
    (∀ s : String,
      ((¬ "[STDOUT] ".data.isPrefixOf s.data ∧ ¬ "[STDERR] ".data.isPrefixOf s.data) ∨
        s.length ≤ 9) →
      marshalLevelContent s = ("STDOUT", s)) := by
  constructor
  · intro lvl c hc
    have hd : c.data ≠ [] := by
      intro hdata
      exact hc (by cases c; simp_all)
    cases lvl with
    | stdout =>
      show ((marshalChars (formatLogLine Level.stdout c).data).1.asString,
        (marshalChars (formatLogLine Level.stdout c).data).2.asString) = _
      rw [show (formatLogLine Level.stdout c).data =
        '[' :: 'S' :: 'T' :: 'D' :: 'O' :: 'U' :: 'T' :: ']' :: ' ' :: c.data from rfl]
      rw [marshalChars_stdout c.data hd]
      rfl
    | stderr =>
      show ((marshalChars (formatLogLine Level.stderr c).data).1.asString,
        (marshalChars (formatLogLine Level.stderr c).data).2.asString) = _
      rw [show (formatLogLine Level.stderr c).data =
        '[' :: 'S' :: 'T' :: 'D' :: 'E' :: 'R' :: 'R' :: ']' :: ' ' :: c.data from rfl]
      rw [marshalChars_stderr c.data hd]
      rfl
  · intro str hs
    have hm : marshalChars str.data = ("STDOUT".data, str.data) := by
      unfold marshalChars
      split
      case isTrue houter =>
        split
        case isTrue hin =>
          exfalso
          have htake : str.data.take 9 = "[STDOUT] ".data := by
            have ht : str.data.take (1 + 8) =
                str.data.take 1 ++ (str.data.drop 1).take 8 := List.take_add str.data 1 8
            rw [houter.2, hin.2] at ht
            exact ht
          have hpre : "[STDOUT] ".data <+: str.data :=
            htake ▸ List.take_prefix 9 str.data
          have hb : "[STDOUT] ".data.isPrefixOf str.data = true :=
            List.isPrefixOf_iff_prefix.mpr hpre
          rcases hs with ⟨hno, _⟩ | hle
          · exact hno hb
          · have hls : str.length = str.data.length := rfl
            have h9 := hin.1
            omega
        case isFalse =>
          split
          case isTrue hin2 =>
            exfalso
            have htake : str.data.take 9 = "[STDERR] ".data := by
              have ht : str.data.take (1 + 8) =
                  str.data.take 1 ++ (str.data.drop 1).take 8 := List.take_add str.data 1 8
              rw [houter.2, hin2.2] at ht
              exact ht
            have hpre : "[STDERR] ".data <+: str.data :=
              htake ▸ List.take_prefix 9 str.data
            have hb : "[STDERR] ".data.isPrefixOf str.data = true :=
              List.isPrefixOf_iff_prefix.mpr hpre
            rcases hs with ⟨_, hno⟩ | hle
            · exact hno hb
            · have hls : str.length = str.data.length := rfl
              have h9 := hin2.1
              omega
          case isFalse => rfl
      case isFalse => rfl
    show ((marshalChars str.data).1.asString, (marshalChars str.data).2.asString) = _
    rw [hm]
    rfl

/-- Witness for the amended C10: round trip of a STDERR line with content
"a", and the fallback on the plain line "hello". -/
theorem c10_witness :
    (("a" : String) ≠ "") ∧
    marshalLevelContent (formatLogLine Level.stderr "a") = (levelName Level.stderr, "a") ∧
    ((¬ "[STDOUT] ".data.isPrefixOf ("hello" : String).data ∧
        ¬ "[STDERR] ".data.isPrefixOf ("hello" : String).data) ∨
      ("hello" : String).length ≤ 9) ∧
    marshalLevelContent "hello" = ("STDOUT", "hello") :=
  ⟨by decide, c10_level_content_roundtrip.1 Level.stderr "a" (by decide),
    by decide, c10_level_content_roundtrip.2 "hello" (by decide)⟩

/-! ## Claim C6 -/

/-- C6.  Every subscriber that passes the `handleWebSocket` ownership gate
receives the LogStore snapshot of its run first and the live event-bus
messages filtered by matching run id afterwards: in the delivered sequence
every snapshot element sits at a strictly smaller position than every live
element, and a reconnecting subscriber (a fresh call with the then-current
snapshot and tail) repeats exactly the same snapshot-then-live flow. -/
theorem c6_snapshot_then_live (token : String) (validate : String → Option Nat)
    (runLookup : Nat → Option WsRun) (groupLookup : Nat → Option WsGroup)
    (projectLookup : Nat → Option WsProject) (runId uid : Nat)
    (snapshot : List LokiEntry) (live : List LogMessage)
    (hauth : handleWebSocketAuth token validate runLookup groupLookup projectLookup runId =
      Except.ok uid) :
    handleWebSocket token validate runLookup groupLookup projectLookup runId
        snapshot live =
      Except.ok (snapshot.map WsDelivered.snap ++
        ((live.filter fun m => m.runId == runId).map WsDelivered.live)) ∧
    (∀ i j (hi : i < (clientDeliver runId snapshot live).length)
        (hj : j < (clientDeliver runId snapshot live).length),
      ((clientDeliver runId snapshot live).get ⟨i, hi⟩).isSnap = true →
      ((clientDeliver runId snapshot live).get ⟨j, hj⟩).isSnap = false →
      i < j) ∧
    (∀ (snapshot2 : List LokiEntry) (live2 : List LogMessage),
      handleWebSocket token validate runLookup groupLookup projectLookup runId
          snapshot2 live2 =
        Except.ok (clientDeliver runId snapshot2 live2)) := by
  refine ⟨?_, ?_, ?_⟩
  · unfold handleWebSocket
    rw [hauth]
    rfl
  · intro i j hi hj hsi hsj
    have hiA : i < (snapshot.map WsDelivered.snap).length := by
      by_contra hgt
      push_neg at hgt
      have hlt : i - (snapshot.map WsDelivered.snap).length <
          ((live.filter fun m => m.runId == runId).map WsDelivered.live).length := by
        have := hi
        simp only [clientDeliver, List.length_append] at this
        omega
      have hget : (clientDeliver runId snapshot live).get ⟨i, hi⟩ =
          ((live.filter fun m => m.runId == runId).map WsDelivered.live).get
            ⟨i - (snapshot.map WsDelivered.snap).length, hlt⟩ := by
        simp only [clientDeliver, List.get_eq_getElem]
        exact List.getElem_append_right hgt
      have hmem : ((live.filter fun m => m.runId == runId).map WsDelivered.live).get
            ⟨i - (snapshot.map WsDelivered.snap).length, hlt⟩ ∈
          ((live.filter fun m => m.runId == runId).map WsDelivered.live) :=
        List.get_mem _ _ _
      rw [List.mem_map] at hmem
      obtain ⟨m, _, hm⟩ := hmem
      rw [hget, ← hm] at hsi
      simp [WsDelivered.isSnap] at hsi
    have hjB : (snapshot.map WsDelivered.snap).length ≤ j := by
      by_contra hgt
      push_neg at hgt
      have hget : (clientDeliver runId snapshot live).get ⟨j, hj⟩ =
          (snapshot.map WsDelivered.snap).get ⟨j, hgt⟩ := by
        simp only [clientDeliver, List.get_eq_getElem]
        exact List.getElem_append_left hgt
      have hmem : (snapshot.map WsDelivered.snap).get ⟨j, hgt⟩ ∈
          (snapshot.map WsDelivered.snap) :=
        List.get_mem _ _ _
      rw [List.mem_map] at hmem
      obtain ⟨e, _, hmm⟩ := hmem
      rw [hget, ← hmm] at hsj
      simp [WsDelivered.isSnap] at hsj
    omega
  · intro snapshot2 live2
    unfold handleWebSocket
    rw [hauth]

/-- Witness for C6 at a concrete authorized subscriber: token "t" validates
to user 1, run 5 belongs to group 2 in project 4 owned by user 1; one
snapshot entry and one matching live message are delivered in
snapshot-then-live order. -/
theorem c6_witness :
    (handleWebSocketAuth "t" (fun s => if s = "t" then some 1 else Option.none)
        (fun r => if r = 5 then some { id := 5, groupId := 2 } else Option.none)
        (fun g => if g = 2 then some { id := 2, projectId := 4 } else Option.none)
        (fun p => if p = 4 then some { id := 4, userId := 1 } else Option.none) 5 =
      Except.ok 1) ∧
    handleWebSocket "t" (fun s => if s = "t" then some 1 else Option.none)
        (fun r => if r = 5 then some { id := 5, groupId := 2 } else Option.none)
        (fun g => if g = 2 then some { id := 2, projectId := 4 } else Option.none)
        (fun p => if p = 4 then some { id := 4, userId := 1 } else Option.none) 5
        [{ ts := 1, line := "[STDOUT] a" }]
        [{ runId := 5, ts := 2, level := "STDOUT", content := "b" }] =
      Except.ok ([{ ts := 1, line := "[STDOUT] a" }].map WsDelivered.snap ++
        (([{ runId := 5, ts := 2, level := "STDOUT", content := "b" }].filter
          fun m => m.runId == 5).map WsDelivered.live)) :=
  ⟨rfl,
    (c6_snapshot_then_live "t" (fun s => if s = "t" then some 1 else Option.none)
      (fun r => if r = 5 then some { id := 5, groupId := 2 } else Option.none)
      (fun g => if g = 2 then some { id := 2, projectId := 4 } else Option.none)
      (fun p => if p = 4 then some { id := 4, userId := 1 } else Option.none) 5 1
      [{ ts := 1, line := "[STDOUT] a" }]
      [{ runId := 5, ts := 2, level := "STDOUT", content := "b" }] rfl).1⟩

end Swiftlog
